import Mathlib

/-!
Verification development for the WeKnora RAG pipeline engine.

Go strings are modelled as byte lists (`GoStr`), machine integers as `Nat`
with explicit reduction modulo 2^32 where overflow matters, and float64
scores as rationals.  Each definition is a shallow embedding of the
corresponding Go function; the file is organised as: string primitives,
SHA-256, FAQ metadata hashing (types/faq metadata file), input validation
(internal/utils/security.go), the chat execution context and its Clone
(internal/types/chat_manage.go), the prompt-assembly stage
(chat_pipline/into_chat_message.go) and the history-loading stage
(chat_pipline/load_history.go), followed by the theorems.
-/

/-- A Go string: a list of bytes (each < 256 in well-formed inputs). -/
abbrev GoStr := List Nat

/-- UTF-8 encoding of one Unicode code point, as in Go's `utf8.EncodeRune`. -/
def utf8EncodeChar (c : Char) : List Nat :=
  let n := c.toNat
  if n < 0x80 then [n]
  else if n < 0x800 then [0xC0 ||| (n >>> 6), 0x80 ||| (n &&& 0x3F)]
  else if n < 0x10000 then
    [0xE0 ||| (n >>> 12), 0x80 ||| ((n >>> 6) &&& 0x3F), 0x80 ||| (n &&& 0x3F)]
  else
    [0xF0 ||| (n >>> 18), 0x80 ||| ((n >>> 12) &&& 0x3F),
     0x80 ||| ((n >>> 6) &&& 0x3F), 0x80 ||| (n &&& 0x3F)]

/-- UTF-8 encoding of a code-point sequence. -/
def utf8Encode (cs : List Char) : GoStr :=
  cs.foldr (fun c r => utf8EncodeChar c ++ r) []

/-- Embed a Lean string literal as the byte content of a Go string literal. -/
def gs (s : String) : GoStr := utf8Encode s.data

/-- Decimal rendering with structural fuel (the fuel only needs to cover
the digit count, so `n + 1` is always enough; structural recursion keeps
the function computable by the kernel). -/
def natToStrGo : Nat → Nat → GoStr
  | 0, _ => []
  | fuel + 1, n => if n < 10 then [48 + n] else natToStrGo fuel (n / 10) ++ [48 + n % 10]

/-- Decimal rendering of a natural number, as Go's `fmt.Sprintf` `%d`. -/
def natToStr (n : Nat) : GoStr := natToStrGo (n + 1) n

/-- The ASCII white-space set used by Go's `strings` package
(`'\t' '\n' '\v' '\f' '\r' ' '`). -/
def isAsciiSpace (b : Nat) : Bool :=
  b == 0x20 || b == 0x09 || b == 0x0A || b == 0x0B || b == 0x0C || b == 0x0D

/-- Drop leading white space from a byte string: ASCII spaces plus the
Latin-1 spaces U+0085 and U+00A0 (UTF-8 `C2 85` / `C2 A0`), as trimmed by
Go's `strings.TrimSpace` via `unicode.IsSpace`.  (Space code points above
U+00FF are not modelled; no claim exercises them.) -/
def trimLeftBytes : GoStr → GoStr
  | 0xC2 :: b :: rest =>
    if b = 0x85 ∨ b = 0xA0 then trimLeftBytes rest else 0xC2 :: b :: rest
  | b :: rest => if isAsciiSpace b then trimLeftBytes rest else b :: rest
  | [] => []

/-- Drop leading white space from a REVERSED byte string (so: trailing
white space of the original), recognising the reversed `C2 85` / `C2 A0`
pairs. -/
def trimRightRev : GoStr → GoStr
  | 0x85 :: 0xC2 :: rest => trimRightRev rest
  | 0xA0 :: 0xC2 :: rest => trimRightRev rest
  | b :: rest => if isAsciiSpace b then trimRightRev rest else b :: rest
  | [] => []

/-- Go `strings.TrimSpace` on the byte-string model. -/
def trimSpace (s : GoStr) : GoStr :=
  (trimRightRev (trimLeftBytes s).reverse).reverse

/-- Accumulator loop of `normalizeStrings`: `dedup` is the list built so
far (it also serves as the `seen` set, exactly as in the Go code where
`seen` always holds the members of `dedup`). -/
def normAux : List GoStr → List GoStr → List GoStr
  | [], dedup => dedup
  | v :: vs, dedup =>
    let t := trimSpace v
    if t = [] then normAux vs dedup
    else if t ∈ dedup then normAux vs dedup
    else normAux vs (dedup ++ [t])

/-- `normalizeStrings` from the FAQ metadata code: trim each entry, drop
entries that become empty, and de-duplicate keeping first occurrences
(`nil` and the empty list coincide in the model). -/
def normalizeStrings (values : List GoStr) : List GoStr := normAux values []

/-- Go `sort.Strings`: byte-wise lexicographic ascending sort (the
lexicographic order on `List ℕ`). -/
def sortStrings (l : List GoStr) : List GoStr :=
  List.insertionSort (fun a b => a ≤ b) l

/-- `strings.Join(l, ",")`. -/
def joinComma : List GoStr → GoStr
  | [] => []
  | [a] => a
  | a :: b :: rest => a ++ gs "," ++ joinComma (b :: rest)

/-! ## SHA-256 (Go `crypto/sha256`), on byte lists with `Nat` words mod 2^32 -/

/-- 2^32. -/
def m32 : Nat := 4294967296

/-- 32-bit right rotation. -/
def rotr32 (x n : Nat) : Nat := ((x >>> n) ||| (x <<< (32 - n))) % m32

/-- The 64 SHA-256 round constants, written in decimal. -/
def shaK : List Nat :=
  [1116352408, 1899447441, 3049323471, 3921009573, 961987163,
   1508970993, 2453635748, 2870763221, 3624381080, 310598401,
   607225278, 1426881987, 1925078388, 2162078206, 2614888103,
   3248222580, 3835390401, 4022224774, 264347078, 604807628,
   770255983, 1249150122, 1555081692, 1996064986, 2554220882,
   2821834349, 2952996808, 3210313671, 3336571891, 3584528711,
   113926993, 338241895, 666307205, 773529912, 1294757372,
   1396182291, 1695183700, 1986661051, 2177026350, 2456956037,
   2730485921, 2820302411, 3259730800, 3345764771, 3516065817,
   3600352804, 4094571909, 275423344, 430227734, 506948616,
   659060556, 883997877, 958139571, 1322822218, 1537002063,
   1747873779, 1955562222, 2024104815, 2227730452, 2361852424,
   2428436474, 2756734187, 3204031479, 3329325298]

/-- The initial SHA-256 state words, written in decimal. -/
def shaH0 : List Nat :=
  [1779033703, 3144134277, 1013904242, 2773480762,
   1359893119, 2600822924, 528734635, 1541459225]

/-- Big-endian 8-byte rendering of a length in bits. -/
def be64 (n : Nat) : List Nat :=
  [(n >>> 56) &&& 255, (n >>> 48) &&& 255, (n >>> 40) &&& 255,
   (n >>> 32) &&& 255, (n >>> 24) &&& 255, (n >>> 16) &&& 255,
   (n >>> 8) &&& 255, n &&& 255]

/-- SHA-256 message padding. -/
def shaPad (msg : List Nat) : List Nat :=
  let k := (64 - ((msg.length + 9) % 64)) % 64
  msg ++ 0x80 :: List.replicate k 0 ++ be64 (msg.length * 8)

/-- Split into 64-byte blocks. -/
def chunks64 : List Nat → List (List Nat)
  | [] => []
  | b :: rest => (b :: rest).take 64 :: chunks64 ((b :: rest).drop 64)
termination_by l => l.length
decreasing_by simp only [List.length_drop, List.length_cons]; omega

/-- Big-endian 32-bit words from bytes. -/
def toWordsBE : List Nat → List Nat
  | b0 :: b1 :: b2 :: b3 :: rest =>
    (((b0 * 256 + b1) * 256 + b2) * 256 + b3) :: toWordsBE rest
  | _ => []

/-- Message-schedule extension to 64 words. -/
def shaExtend (w : List Nat) : List Nat :=
  if _h : 64 ≤ w.length then w
  else
    let x15 := w.getD (w.length - 15) 0
    let x2 := w.getD (w.length - 2) 0
    let s0 := (rotr32 x15 7) ^^^ (rotr32 x15 18) ^^^ (x15 >>> 3)
    let s1 := (rotr32 x2 17) ^^^ (rotr32 x2 19) ^^^ (x2 >>> 10)
    shaExtend (w ++ [(w.getD (w.length - 16) 0 + s0 + w.getD (w.length - 7) 0 + s1) % m32])
termination_by 64 - w.length
decreasing_by simp; omega

/-- One SHA-256 compression round on the 8-word state. -/
def shaStep (st : List Nat) (k w : Nat) : List Nat :=
  let a := st.getD 0 0
  let b := st.getD 1 0
  let c := st.getD 2 0
  let d := st.getD 3 0
  let e := st.getD 4 0
  let f := st.getD 5 0
  let g := st.getD 6 0
  let hh := st.getD 7 0
  let bigS1 := (rotr32 e 6) ^^^ (rotr32 e 11) ^^^ (rotr32 e 25)
  let ch := (e &&& f) ^^^ ((e ^^^ 4294967295) &&& g)
  let temp1 := (hh + bigS1 + ch + k + w) % m32
  let bigS0 := (rotr32 a 2) ^^^ (rotr32 a 13) ^^^ (rotr32 a 22)
  let maj := (a &&& b) ^^^ (a &&& c) ^^^ (b &&& c)
  let temp2 := (bigS0 + maj) % m32
  [(temp1 + temp2) % m32, a, b, c, (d + temp1) % m32, e, f, g]

/-- Process one 64-byte block. -/
def shaChunk (h : List Nat) (chunk : List Nat) : List Nat :=
  let w := shaExtend (toWordsBE chunk)
  let st := (shaK.zip w).foldl (fun st p => shaStep st p.1 p.2) h
  (h.zip st).map (fun p => (p.1 + p.2) % m32)

/-- SHA-256 digest as eight 32-bit words. -/
def sha256Words (msg : List Nat) : List Nat :=
  (chunks64 (shaPad msg)).foldl shaChunk shaH0

/-- One lowercase hex digit. -/
def hexDigit (d : Nat) : Nat := if d < 10 then 48 + d else 87 + d

/-- Lowercase hex rendering of one 32-bit word. -/
def wordToHex (w : Nat) : GoStr :=
  [28, 24, 20, 16, 12, 8, 4, 0].map (fun sh => hexDigit ((w >>> sh) &&& 15))

/-- `hex.EncodeToString(sha256.Sum256(msg))` on the byte-string model. -/
def sha256Hex (msg : GoStr) : GoStr :=
  (sha256Words msg).foldr (fun w acc => wordToHex w ++ acc) []

/-! ## FAQ chunk metadata and content hash (types package, FAQ metadata file) -/

/-- `FAQChunkMetadata` from the types package (field names as in Go). -/
structure FAQChunkMetadata where
  StandardQuestion : GoStr
  SimilarQuestions : List GoStr
  NegativeQuestions : List GoStr
  Answers : List GoStr
  AnswerStrategy : GoStr
  Version : Int
  Source : GoStr
  deriving DecidableEq, Repr

/-- `(*FAQChunkMetadata).Normalize`: trim the standard question, normalize
the three string lists, default the version to 1. -/
def FAQChunkMetadata.Normalize (m : FAQChunkMetadata) : FAQChunkMetadata :=
  { m with
    StandardQuestion := trimSpace m.StandardQuestion
    SimilarQuestions := normalizeStrings m.SimilarQuestions
    NegativeQuestions := normalizeStrings m.NegativeQuestions
    Answers := normalizeStrings m.Answers
    Version := if m.Version ≤ 0 then 1 else m.Version }

/-- The string built by `CalculateFAQContentHash` before hashing: the
normalized standard question and the three sorted, normalized lists,
joined with `"|"` separators (list elements joined with `","`). -/
def faqContentString (meta : FAQChunkMetadata) : GoStr :=
  let n := meta.Normalize
  n.StandardQuestion ++ gs "|"
    ++ joinComma (sortStrings n.SimilarQuestions) ++ gs "|"
    ++ joinComma (sortStrings n.NegativeQuestions) ++ gs "|"
    ++ joinComma (sortStrings n.Answers)

/-- `CalculateFAQContentHash`: SHA-256 (hex) of the canonical content
string.  (The Go `nil` receiver case is outside the pointer-free model.) -/
def CalculateFAQContentHash (meta : FAQChunkMetadata) : GoStr :=
  sha256Hex (faqContentString meta)

/-! ## Input validation (internal/utils/security.go) -/

/-- Go `utf8.DecodeRune` on a byte list: returns (rune, size); errors
decode to (0xFFFD, 1).  Follows Go's accept-range table (rejecting
overlong encodings, surrogates and code points above U+10FFFF). -/
def decodeRuneGo : List Nat → Nat × Nat
  | [] => (0xFFFD, 1)
  | b0 :: rest =>
    if b0 < 0x80 then (b0, 1)
    else if b0 < 0xC2 then (0xFFFD, 1)
    else if b0 ≤ 0xDF then
      match rest with
      | b1 :: _ =>
        if 0x80 ≤ b1 ∧ b1 ≤ 0xBF then
          (((b0 &&& 0x1F) <<< 6) ||| (b1 &&& 0x3F), 2)
        else (0xFFFD, 1)
      | _ => (0xFFFD, 1)
    else if b0 ≤ 0xEF then
      match rest with
      | b1 :: b2 :: _ =>
        let lo1 := if b0 = 0xE0 then 0xA0 else 0x80
        let hi1 := if b0 = 0xED then 0x9F else 0xBF
        if (lo1 ≤ b1 ∧ b1 ≤ hi1) ∧ (0x80 ≤ b2 ∧ b2 ≤ 0xBF) then
          (((b0 &&& 0x0F) <<< 12) ||| ((b1 &&& 0x3F) <<< 6) ||| (b2 &&& 0x3F), 3)
        else (0xFFFD, 1)
      | _ => (0xFFFD, 1)
    else if b0 ≤ 0xF4 then
      match rest with
      | b1 :: b2 :: b3 :: _ =>
        let lo1 := if b0 = 0xF0 then 0x90 else 0x80
        let hi1 := if b0 = 0xF4 then 0x8F else 0xBF
        if (lo1 ≤ b1 ∧ b1 ≤ hi1) ∧ (0x80 ≤ b2 ∧ b2 ≤ 0xBF) ∧ (0x80 ≤ b3 ∧ b3 ≤ 0xBF) then
          (((b0 &&& 0x07) <<< 18) ||| ((b1 &&& 0x3F) <<< 12)
            ||| ((b2 &&& 0x3F) <<< 6) ||| (b3 &&& 0x3F), 4)
        else (0xFFFD, 1)
      | _ => (0xFFFD, 1)
    else (0xFFFD, 1)

/-- Size returned by `decodeRuneGo` is at least 1 (so the decode loops
terminate). -/
theorem decodeRuneGo_size_pos (s : List Nat) : 0 < (decodeRuneGo s).2 := by
  unfold decodeRuneGo
  rcases s with _ | ⟨b0, rest⟩
  · simp
  · dsimp only
    repeat' split
    all_goals simp

/-- The decode loop with structural fuel: every step consumes at least
one byte (`decodeRuneGo_size_pos`), so `length + 1` fuel always finishes
the scan (structural fuel keeps the loop computable by the kernel). -/
def runesGo : Nat → List Nat → List Nat
  | 0, _ => []
  | _, [] => []
  | fuel + 1, b :: rest =>
    (decodeRuneGo (b :: rest)).1 :: runesGo fuel ((b :: rest).drop (decodeRuneGo (b :: rest)).2)

/-- The rune sequence of a byte string, as Go's `for range` over a string
(invalid bytes yield U+FFFD and advance by one byte). -/
def runesOf (s : List Nat) : List Nat := runesGo (s.length + 1) s

/-- The validity loop with structural fuel (as for `runesGo`). -/
def utf8ValidGo : Nat → List Nat → Bool
  | 0, _ => true
  | _, [] => true
  | fuel + 1, b :: rest =>
    if (decodeRuneGo (b :: rest)).1 = 0xFFFD ∧ (decodeRuneGo (b :: rest)).2 = 1 then false
    else utf8ValidGo fuel ((b :: rest).drop (decodeRuneGo (b :: rest)).2)

/-- Go `utf8.ValidString`: every decode step succeeds (a step fails
exactly when it returns the error rune with size 1). -/
def utf8Valid (s : List Nat) : Bool := utf8ValidGo (s.length + 1) s

/-- The control-character test of `ValidateInput`: some rune is < 32 and
not tab (9), line feed (10) or carriage return (13). -/
def hasBadControl (s : GoStr) : Bool :=
  (runesOf s).any (fun r => decide (r < 32 ∧ r ≠ 9 ∧ r ≠ 10 ∧ r ≠ 13))

/-- One item of a (sub)regular expression as used by the XSS patterns:
a literal byte, or the Kleene star of a one-byte character class. -/
inductive RItem where
  | lit (b : Nat)
  | star (p : Nat → Bool)

/-- Matching a pattern at the start of a byte string, with structural
fuel.  A star item either matches nothing or consumes one byte of its
class; a match exists for some split exactly when the Go regexp matches
here (greedy vs. lazy repetition is irrelevant for existence of a
match). -/
def matchHereGo : Nat → List RItem → GoStr → Bool
  | 0, _, _ => false
  | _, [], _ => true
  | _, .lit _ :: _, [] => false
  | fuel + 1, .lit b :: ps, x :: s => x == b && matchHereGo fuel ps s
  | fuel + 1, .star _ :: ps, [] => matchHereGo fuel ps []
  | fuel + 1, .star p :: ps, x :: s =>
    matchHereGo fuel ps (x :: s) || (p x && matchHereGo fuel (.star p :: ps) s)

/-- Matching at the start of the string; every recursive step shrinks
pattern-length + string-length, so this fuel always suffices (structural
fuel keeps the matcher computable by the kernel). -/
def matchHere (pat : List RItem) (s : GoStr) : Bool :=
  matchHereGo (pat.length + s.length + 1) pat s

/-- `re.MatchString`: the pattern matches at some position. -/
def existsMatch (pat : List RItem) : GoStr → Bool
  | [] => matchHere pat []
  | x :: s => matchHere pat (x :: s) || existsMatch pat s

/-- ASCII lower-casing of one byte (the case folding Go's `(?i)` performs
on the ASCII-only XSS patterns). -/
def asciiToLower (b : Nat) : Nat := if 65 ≤ b ∧ b ≤ 90 then b + 32 else b

/-- Literal pattern items from a string. -/
def lits (s : String) : List RItem := (gs s).map RItem.lit

/-- `[^>]*`. -/
def notGtStar : RItem := .star (fun b => b != 0x3E)

/-- `.*?` with Go's default `.` (any byte but newline; multi-byte runes
are simulated byte-wise, which is equivalent for match existence). -/
def dotStar : RItem := .star (fun b => b != 0x0A)

/-- `\s*` with Go regexp's ASCII `\s` class `[\t\n\f\r ]`. -/
def wsStar : RItem :=
  .star (fun b => b == 0x20 || b == 0x09 || b == 0x0A || b == 0x0C || b == 0x0D)

/-- A `<tag[^>]*>.*?</tag>` pattern. -/
def pairedTag (tag : String) : List RItem :=
  lits ("<" ++ tag) ++ [notGtStar] ++ lits ">" ++ [dotStar] ++ lits ("</" ++ tag ++ ">")

/-- A `<tag[^>]*>` pattern. -/
def openTag (tag : String) : List RItem :=
  lits ("<" ++ tag) ++ [notGtStar] ++ lits ">"

/-- An `event\s*=` pattern. -/
def eventAttr (ev : String) : List RItem := lits ev ++ [wsStar] ++ lits "="

/-- The `xssPatterns` list of internal/utils/security.go (all are
case-insensitive; matching is performed on the lower-cased input). -/
def xssPatterns : List (List RItem) :=
  [pairedTag "script", pairedTag "iframe", pairedTag "object",
   pairedTag "embed", openTag "embed", pairedTag "form",
   openTag "input", pairedTag "button",
   lits "javascript:", lits "vbscript:",
   eventAttr "onload", eventAttr "onerror", eventAttr "onclick",
   eventAttr "onmouseover", eventAttr "onfocus", eventAttr "onblur"]

/-- Whether some XSS pattern matches the (case-folded) input. -/
def matchesXSS (s : GoStr) : Bool :=
  xssPatterns.any (fun p => existsMatch p (s.map asciiToLower))

/-- `ValidateInput` from internal/utils/security.go. -/
def ValidateInput (input : GoStr) : GoStr × Bool :=
  if input = [] then ([], true)
  else if hasBadControl input then ([], false)
  else if ¬ utf8Valid input then ([], false)
  else if matchesXSS input then ([], false)
  else (trimSpace input, true)

/-! ## Chat execution context (internal/types/chat_manage.go) and
pipeline value types.  Struct declarations that live outside the provided
sources (`SearchResult`, `SummaryConfig`, `History`, `Message`,
`SearchTarget`, the plugin error object) are modelled from their uses in
the provided pipeline code and from the spec, with only the fields those
uses touch. -/

/-- Modelled from the spec: a search hit ("id, content text, ..., score,
chunk type, optional image/OCR metadata"); only the fields read by the
prompt-assembly stage are included. -/
structure SearchResult where
  ID : GoStr
  Content : GoStr
  ImageInfo : GoStr
  ChunkType : GoStr
  Score : ℚ
  deriving DecidableEq, Repr

/-- Modelled from the spec: the FAQ chunk-type tag carried by FAQ search
results (`types.ChunkTypeFAQ`); its concrete value is immaterial to every
claim, which only compare for equality with it. -/
def ChunkTypeFAQ : GoStr := gs "faq"

/-- Modelled from usage: `SummaryConfig` with exactly the fields the
provided pipeline code and `Clone` touch. -/
structure SummaryConfig where
  MaxTokens : Int
  RepeatPenalty : ℚ
  TopK : Int
  TopP : ℚ
  FrequencyPenalty : ℚ
  PresencePenalty : ℚ
  Prompt : GoStr
  ContextTemplate : GoStr
  NoMatchPrefix : GoStr
  Temperature : ℚ
  Seed : Int
  MaxCompletionTokens : Int
  Thinking : Option Bool
  deriving DecidableEq, Repr

/-- Modelled from usage in load_history.go and the spec ("History Turn:
query, answer, timestamp, optional knowledge references"). -/
structure History where
  Query : GoStr
  Answer : GoStr
  CreateAt : Nat
  KnowledgeReferences : List GoStr
  deriving DecidableEq, Repr

/-- The zero value `types.History{}`. -/
def zeroHistory : History :=
  { Query := [], Answer := [], CreateAt := 0, KnowledgeReferences := [] }

/-- Modelled from usage: a persisted message as read by the
history-loading stage. -/
structure Message where
  RequestID : GoStr
  Role : GoStr
  Content : GoStr
  CreatedAt : Nat
  KnowledgeReferences : List GoStr
  deriving DecidableEq, Repr

/-- Modelled from usage in `Clone`: a search target (its Go field `Type`
is spelled `TargetType` because `Type` is reserved in Lean). -/
structure SearchTarget where
  TargetType : Nat
  KnowledgeBaseID : GoStr
  KnowledgeIDs : List GoStr
  deriving DecidableEq, Repr

/-- `ChatManage` from internal/types/chat_manage.go, with every field of
the Go struct (pointer-valued pipeline outputs are modelled as `Option
Unit` presence flags, maps as association lists). -/
structure ChatManage where
  SessionID : GoStr
  Query : GoStr
  RewriteQuery : GoStr
  History : List History
  KnowledgeBaseIDs : List GoStr
  KnowledgeIDs : List GoStr
  SearchTargets : List SearchTarget
  VectorThreshold : ℚ
  KeywordThreshold : ℚ
  EmbeddingTopK : Int
  VectorDatabase : GoStr
  RerankModelID : GoStr
  RerankTopK : Int
  RerankThreshold : ℚ
  MaxRounds : Int
  ChatModelID : GoStr
  SummaryConfig : SummaryConfig
  FallbackStrategy : GoStr
  FallbackResponse : GoStr
  FallbackPrompt : GoStr
  EnableRewrite : Bool
  EnableQueryExpansion : Bool
  RewritePromptSystem : GoStr
  RewritePromptUser : GoStr
  RerankResult : List SearchResult
  MergeResult : List SearchResult
  SearchResult : List SearchResult
  Entity : List GoStr
  EntityKBIDs : List GoStr
  EntityKnowledge : List (GoStr × GoStr)
  GraphResult : Option Unit
  UserContent : GoStr
  ChatResponse : Option Unit
  EventBus : Option Unit
  MessageID : GoStr
  TenantID : Nat
  WebSearchEnabled : Bool
  FAQPriorityEnabled : Bool
  FAQDirectAnswerThreshold : ℚ
  FAQScoreBoost : ℚ
  deriving DecidableEq, Repr

/-- `(*ChatManage).Clone` from internal/types/chat_manage.go: the struct
literal the Go method returns, with element-wise slice copies and the
fields absent from the literal at their zero values. -/
def ChatManage.Clone (c : ChatManage) : ChatManage :=
  { Query := c.Query
    RewriteQuery := c.RewriteQuery
    SessionID := c.SessionID
    KnowledgeBaseIDs := c.KnowledgeBaseIDs
    KnowledgeIDs := c.KnowledgeIDs
    SearchTargets := c.SearchTargets.map (fun t =>
      { TargetType := t.TargetType
        KnowledgeBaseID := t.KnowledgeBaseID
        KnowledgeIDs := t.KnowledgeIDs })
    VectorThreshold := c.VectorThreshold
    KeywordThreshold := c.KeywordThreshold
    EmbeddingTopK := c.EmbeddingTopK
    MaxRounds := c.MaxRounds
    VectorDatabase := c.VectorDatabase
    RerankModelID := c.RerankModelID
    RerankTopK := c.RerankTopK
    RerankThreshold := c.RerankThreshold
    ChatModelID := c.ChatModelID
    SummaryConfig :=
      { MaxTokens := c.SummaryConfig.MaxTokens
        RepeatPenalty := c.SummaryConfig.RepeatPenalty
        TopK := c.SummaryConfig.TopK
        TopP := c.SummaryConfig.TopP
        FrequencyPenalty := c.SummaryConfig.FrequencyPenalty
        PresencePenalty := c.SummaryConfig.PresencePenalty
        Prompt := c.SummaryConfig.Prompt
        ContextTemplate := c.SummaryConfig.ContextTemplate
        NoMatchPrefix := c.SummaryConfig.NoMatchPrefix
        Temperature := c.SummaryConfig.Temperature
        Seed := c.SummaryConfig.Seed
        MaxCompletionTokens := c.SummaryConfig.MaxCompletionTokens
        Thinking := c.SummaryConfig.Thinking }
    FallbackStrategy := c.FallbackStrategy
    FallbackResponse := c.FallbackResponse
    FallbackPrompt := c.FallbackPrompt
    RewritePromptSystem := c.RewritePromptSystem
    RewritePromptUser := c.RewritePromptUser
    EnableRewrite := c.EnableRewrite
    EnableQueryExpansion := c.EnableQueryExpansion
    TenantID := c.TenantID
    FAQPriorityEnabled := c.FAQPriorityEnabled
    FAQDirectAnswerThreshold := c.FAQDirectAnswerThreshold
    FAQScoreBoost := c.FAQScoreBoost
    History := []
    SearchResult := []
    RerankResult := []
    MergeResult := []
    Entity := []
    EntityKBIDs := []
    EntityKnowledge := []
    GraphResult := none
    UserContent := []
    ChatResponse := none
    EventBus := none
    MessageID := []
    WebSearchEnabled := false }

/-- Modelled from the spec: the plugin error object ("kind + cause +
stage name"); `ErrTemplateExecute` is the prompt-assembly kind. -/
structure PluginError where
  kind : GoStr
  cause : GoStr
  deriving DecidableEq, Repr

/-- Modelled from the spec: the prompt-assembly error kind constant. -/
def ErrTemplateExecute : PluginError := { kind := gs "template execute error", cause := [] }

/-- `(*PluginError).WithError`: attach a cause. -/
def PluginError.WithError (e : PluginError) (c : GoStr) : PluginError := { e with cause := c }

/-- The observable outcome of running one plugin `OnEvent`: either the
plugin returned an error without invoking `next` (carrying the context
state at that moment), or it invoked `next` on the given context state. -/
inductive StageResult where
  | errored (cm : ChatManage) (e : PluginError)
  | nexted (cm : ChatManage)
  deriving Repr

/-! ## Prompt-assembly stage (chat_pipline/into_chat_message.go) -/

/-- Go `strings.ReplaceAll` for a non-empty pattern (all the placeholder
patterns are non-empty literals; an empty pattern returns the string
unchanged here, where Go would interleave). -/
def replaceAll (s pat rep : GoStr) : GoStr :=
  match s with
  | [] => []
  | x :: rest =>
    if pat ≠ [] ∧ pat.isPrefixOf (x :: rest) then
      rep ++ replaceAll ((x :: rest).drop pat.length) pat rep
    else x :: replaceAll rest pat rep
termination_by s.length
decreasing_by
  · simp only [List.length_drop, List.length_cons]
    rename_i hcond
    have : pat.length ≠ 0 := by
      intro h0
      exact hcond.1 (List.eq_nil_of_length_eq_zero h0)
    omega
  · simp

/-- `getEnrichedPassageForChat`, with the JSON image-information merge
(`enrichContentWithImageInfo`: JSON decoding plus Markdown-link
annotation) abstracted as the parameter `enrich` — no claim depends on
the merged text, only on where passages are placed. -/
def getEnrichedPassage (enrich : GoStr → GoStr → GoStr) (r : SearchResult) : GoStr :=
  if r.Content = [] ∧ r.ImageInfo = [] then []
  else if r.ImageInfo = [] then r.Content
  else enrich r.Content r.ImageInfo

/-- One iteration of the FAQ/document separation loop of
`PluginIntoChatMessage.OnEvent`: an FAQ-typed result is appended to
`faqResults` (possibly raising the high-confidence flag), every other
result to `docResults`. -/
def faqStep (th : ℚ) (acc : List SearchResult × List SearchResult × Bool)
    (r : SearchResult) : List SearchResult × List SearchResult × Bool :=
  if r.ChunkType = ChunkTypeFAQ then
    (acc.1 ++ [r], acc.2.1, if r.Score ≥ th ∧ ¬acc.2.2 then true else acc.2.2)
  else (acc.1, acc.2.1 ++ [r], acc.2.2)

/-- The FAQ/document separation loop at the top of
`PluginIntoChatMessage.OnEvent`: run only when FAQ priority is enabled;
accumulates `faqResults`, `docResults` and the `hasHighConfidenceFAQ`
flag exactly as the Go loop does. -/
def faqSeparate (enabled : Bool) (th : ℚ) (results : List SearchResult) :
    List SearchResult × List SearchResult × Bool :=
  if !enabled then ([], [], false)
  else results.foldl (faqStep th) ([], [], false)

/-- The `[FAQ-%d]` lines (1-based index `i+1`; the first entry carries
the exact-match marker when the high-confidence flag is set). -/
def faqLinesAux (enrich : GoStr → GoStr → GoStr) (hasHC : Bool) :
    Nat → List SearchResult → GoStr
  | _, [] => []
  | i, r :: rest =>
    gs "[FAQ-" ++ natToStr (i + 1) ++ gs "] "
      ++ (if hasHC ∧ i = 0 then gs "⭐ 精准匹配: " else [])
      ++ getEnrichedPassage enrich r ++ gs "\n"
      ++ faqLinesAux enrich hasHC (i + 1) rest

/-- The `[DOC-%d]` lines. -/
def docLinesAux (enrich : GoStr → GoStr → GoStr) : Nat → List SearchResult → GoStr
  | _, [] => []
  | i, r :: rest =>
    gs "[DOC-" ++ natToStr (i + 1) ++ gs "] "
      ++ getEnrichedPassage enrich r ++ gs "\n"
      ++ docLinesAux enrich (i + 1) rest

/-- The flat `[%d] passage` list with blank-line separators (the
non-FAQ-priority branch). -/
def flatLinesAux (enrich : GoStr → GoStr → GoStr) : Nat → List SearchResult → GoStr
  | _, [] => []
  | i, r :: rest =>
    (if 0 < i then gs "\n\n" else [])
      ++ gs "[" ++ natToStr (i + 1) ++ gs "] "
      ++ getEnrichedPassage enrich r
      ++ flatLinesAux enrich (i + 1) rest

/-- The contexts block built by `PluginIntoChatMessage.OnEvent` from the
separated results. -/
def buildContexts (enrich : GoStr → GoStr → GoStr) (enabled hasHC : Bool)
    (faqs docs merge : List SearchResult) : GoStr :=
  if enabled ∧ faqs ≠ [] then
    gs "### 资料来源 1：标准问答库 (FAQ)\n"
      ++ gs "【高置信度 - 请优先参考】\n"
      ++ faqLinesAux enrich hasHC 0 faqs
      ++ (if docs ≠ [] then
            gs "\n### 资料来源 2：参考文档\n"
              ++ gs "【补充资料 - 仅在FAQ无法解答时参考】\n"
              ++ docLinesAux enrich 0 docs
          else [])
  else flatLinesAux enrich 0 merge

/-- `PluginIntoChatMessage.OnEvent`, parameterised over the impure
inputs: the image-enrichment function and the two `time.Now()` renderings
(`{{current_time}}` and `{{current_week}}`). -/
def intoChatMessage (enrich : GoStr → GoStr → GoStr) (nowTime nowWeek : GoStr)
    (cm : ChatManage) : StageResult :=
  let sep := faqSeparate cm.FAQPriorityEnabled cm.FAQDirectAnswerThreshold cm.MergeResult
  let v := ValidateInput cm.Query
  if v.2 = false then
    .errored cm (ErrTemplateExecute.WithError (gs "用户查询包含非法内容"))
  else
    let contexts := buildContexts enrich cm.FAQPriorityEnabled sep.2.2 sep.1 sep.2.1 cm.MergeResult
    let uc1 := replaceAll cm.SummaryConfig.ContextTemplate (gs "\x7b\x7bquery\x7d\x7d") v.1
    let uc2 := replaceAll uc1 (gs "\x7b\x7bcontexts\x7d\x7d") contexts
    let uc3 := replaceAll uc2 (gs "\x7b\x7bcurrent_time\x7d\x7d") nowTime
    let uc4 := replaceAll uc3 (gs "\x7b\x7bcurrent_week\x7d\x7d") nowWeek
    .nexted { cm with UserContent := uc4 }

/-! ## History-loading stage (chat_pipline/load_history.go) -/

/-- Index of the first occurrence of `pat` in `s`. -/
def findSub (s pat : GoStr) : Option Nat :=
  match s with
  | [] => if pat = [] then some 0 else none
  | x :: rest =>
    if pat.isPrefixOf (x :: rest) then some 0
    else (findSub rest pat).map (fun n => n + 1)

/-- `regThink.ReplaceAllString(content, "")` for the pattern
`(?s)<think>.*?</think>`: repeatedly remove the span from each opening
`<think>` to the next closing `</think>` (newlines included by `(?s)`);
an opening marker with no later closing marker is left in place, exactly
as the lazy regex leaves it unmatched. -/
def stripThinkGo : Nat → GoStr → GoStr
  | 0, s => s
  | _, [] => []
  | fuel + 1, x :: rest =>
    if (gs "<think>").isPrefixOf (x :: rest) then
      match findSub ((x :: rest).drop 7) (gs "</think>") with
      | none => x :: rest
      | some j => stripThinkGo fuel (((x :: rest).drop 7).drop (j + 8))
    else x :: stripThinkGo fuel rest

/-- The scan proper, with structural fuel: every step strictly shortens
the remaining input, so `length + 1` fuel always completes the scan
(structural recursion keeps the function computable by the kernel). -/
def stripThink (s : GoStr) : GoStr := stripThinkGo (s.length + 1) s

/-- Look up a request id in the association-list model of Go's
`map[string]*types.History`. -/
def lookupRid (m : List (GoStr × History)) (rid : GoStr) : Option History :=
  (m.find? (fun p => p.1 == rid)).map Prod.snd

/-- Store/overwrite a request id (new ids append, preserving the model's
deterministic iteration order; the proved properties are insensitive to
the order Go's map iteration would actually produce). -/
def updateRid (m : List (GoStr × History)) (rid : GoStr) (h : History) :
    List (GoStr × History) :=
  match m with
  | [] => [(rid, h)]
  | (k, v) :: rest => if k == rid then (k, h) :: rest else (k, v) :: updateRid rest rid h

/-- One message folded into a history turn: a user message sets the query
and timestamp, any other role sets the think-stripped answer and the
knowledge references. -/
def applyMessage (h : History) (msg : Message) : History :=
  if msg.Role = gs "user" then
    { h with Query := msg.Content, CreateAt := msg.CreatedAt }
  else
    { h with Answer := stripThink msg.Content,
             KnowledgeReferences := msg.KnowledgeReferences }

/-- The request-id grouping loop of `PluginLoadHistory.OnEvent`. -/
def buildHistoryMap (msgs : List Message) : List (GoStr × History) :=
  msgs.foldl
    (fun m msg =>
      updateRid m msg.RequestID (applyMessage ((lookupRid m msg.RequestID).getD zeroHistory) msg))
    []

/-- The descending-timestamp relation used by the `sort.Slice` call
(`CreateAt.After`); the sorted output is non-increasing in `CreateAt`. -/
def histGE (a b : History) : Prop := b.CreateAt ≤ a.CreateAt

instance : DecidableRel histGE := fun a b => Nat.decLe b.CreateAt a.CreateAt

instance : IsTotal History histGE :=
  ⟨fun a b => Or.symm (Nat.le_total a.CreateAt b.CreateAt)⟩

instance : IsTrans History histGE := ⟨fun _ _ _ hab hbc => Nat.le_trans hbc hab⟩

/-- The effective round limit: the request's `MaxRounds` when positive,
the configured `Conversation.MaxRounds` default otherwise. -/
def effectiveMaxRounds (cfgMaxRounds : Int) (cm : ChatManage) : Int :=
  if cm.MaxRounds > 0 then cm.MaxRounds else cfgMaxRounds

/-- The successful-fetch body of `PluginLoadHistory.OnEvent`, part one:
group messages by request id and keep only complete turns (non-empty
query and answer). -/
def historyListOf (history : List Message) : List History :=
  ((buildHistoryMap history).map Prod.snd).filter
    (fun h => decide (h.Answer ≠ [] ∧ h.Query ≠ []))

/-- Truncation of the descending-sorted turn list to the round limit
(`historyList[:maxRounds]` guarded by the length test) followed by the
reversal to chronological order. -/
def processHistory (maxRounds : Int) (history : List Message) : List History :=
  (if maxRounds < ((List.insertionSort histGE (historyListOf history)).length : Int)
   then (List.insertionSort histGE (historyListOf history)).take maxRounds.toNat
   else List.insertionSort histGE (historyListOf history)).reverse

/-- `PluginLoadHistory.OnEvent` proper: dispatch on the message-service
result; both paths invoke `next`. -/
def loadHistory (cfgMaxRounds : Int) (fetch : Int → Except Unit (List Message))
    (cm : ChatManage) : StageResult :=
  match fetch (effectiveMaxRounds cfgMaxRounds cm * 2 + 10) with
  | .error _ => .nexted cm
  | .ok history =>
    .nexted { cm with History := processHistory (effectiveMaxRounds cfgMaxRounds cm) history }

/-! ## Spec-side renderings and auxiliary definitions used by the theorems -/

/-- Spec-side rendering of one FAQ context line for the indexed entry
`p`: the 1-based label, the preferred-exact-match marker exactly on the
first entry when the high-confidence flag is set, the passage, a
newline. -/
def faqLineSpec (enrich : GoStr → GoStr → GoStr) (hasHC : Bool) (p : Nat × SearchResult) : GoStr :=
  gs "[FAQ-" ++ natToStr (p.1 + 1) ++ gs "] "
    ++ (if hasHC ∧ p.1 = 0 then gs "⭐ 精准匹配: " else [])
    ++ getEnrichedPassage enrich p.2 ++ gs "\n"

/-- Spec-side rendering of one reference-document context line. -/
def docLineSpec (enrich : GoStr → GoStr → GoStr) (p : Nat × SearchResult) : GoStr :=
  gs "[DOC-" ++ natToStr (p.1 + 1) ++ gs "] "
    ++ getEnrichedPassage enrich p.2 ++ gs "\n"

/-- Split a byte string at commas: the first comma-separated component
and the remaining components (inverse of `joinComma` on comma-free
components). -/
def unjoin : GoStr → GoStr × List GoStr
  | [] => ([], [])
  | b :: rest =>
    if b = 44 then ([], (unjoin rest).1 :: (unjoin rest).2)
    else (b :: (unjoin rest).1, (unjoin rest).2)

/-- A small concrete execution context used by the witnesses. -/
def cmBase : ChatManage :=
  { SessionID := gs "s1", Query := gs "hi", RewriteQuery := [], History := [],
    KnowledgeBaseIDs := [gs "kb"], KnowledgeIDs := [], SearchTargets := [],
    VectorThreshold := 0, KeywordThreshold := 0, EmbeddingTopK := 10,
    VectorDatabase := [], RerankModelID := [], RerankTopK := 5, RerankThreshold := 0,
    MaxRounds := 0, ChatModelID := [],
    SummaryConfig :=
      { MaxTokens := 0, RepeatPenalty := 1, TopK := 0, TopP := 0,
        FrequencyPenalty := 0, PresencePenalty := 0, Prompt := [],
        ContextTemplate := gs "Q:\x7b\x7bquery\x7d\x7d C:\x7b\x7bcontexts\x7d\x7d",
        NoMatchPrefix := [], Temperature := 0, Seed := 0,
        MaxCompletionTokens := 0, Thinking := none },
    FallbackStrategy := [], FallbackResponse := [], FallbackPrompt := [],
    EnableRewrite := false, EnableQueryExpansion := false,
    RewritePromptSystem := [], RewritePromptUser := [],
    RerankResult := [], MergeResult := [], SearchResult := [],
    Entity := [], EntityKBIDs := [], EntityKnowledge := [],
    GraphResult := none, UserContent := [], ChatResponse := none,
    EventBus := none, MessageID := [], TenantID := 1,
    WebSearchEnabled := false, FAQPriorityEnabled := false,
    FAQDirectAnswerThreshold := 2, FAQScoreBoost := 1 }

/-- A concrete FAQ-typed search result. -/
def faqResSample : SearchResult :=
  { ID := gs "c1", Content := gs "faqA", ImageInfo := [], ChunkType := gs "faq", Score := 3 }

/-- A concrete document-typed search result. -/
def docResSample : SearchResult :=
  { ID := gs "c2", Content := gs "hello", ImageInfo := [], ChunkType := gs "text", Score := 1 }

/-- `cmBase` with a non-empty assembled user content (exercises the
fields `Clone` does not copy). -/
def cmUCSample : ChatManage := { cmBase with UserContent := gs "x" }

/-- FAQ-priority context whose merged results hold one FAQ hit above the
threshold and one document hit. -/
def cmFAQSample : ChatManage :=
  { cmBase with FAQPriorityEnabled := true,
                MergeResult := [faqResSample, docResSample] }

/-- FAQ-priority context whose merged results hold only a document hit
(no FAQ hit at all). -/
def cmDocOnlySample : ChatManage :=
  { cmBase with FAQPriorityEnabled := true, MergeResult := [docResSample] }

/-- Persisted messages of three complete turns (returned out of
chronological order) used by the history witnesses. -/
def msgsSample : List Message :=
  [{ RequestID := gs "r1", Role := gs "user", Content := gs "q1",
     CreatedAt := 5, KnowledgeReferences := [] },
   { RequestID := gs "r2", Role := gs "assistant",
     Content := gs "a2<think>x\ny</think>z", CreatedAt := 0, KnowledgeReferences := [] },
   { RequestID := gs "r2", Role := gs "user", Content := gs "q2",
     CreatedAt := 3, KnowledgeReferences := [] },
   { RequestID := gs "r1", Role := gs "assistant", Content := gs "a1",
     CreatedAt := 0, KnowledgeReferences := [] },
   { RequestID := gs "r3", Role := gs "user", Content := gs "q3",
     CreatedAt := 9, KnowledgeReferences := [] },
   { RequestID := gs "r3", Role := gs "assistant", Content := gs "a3",
     CreatedAt := 0, KnowledgeReferences := [] }]

/-- An FAQ content descriptor. -/
def faqMetaA : FAQChunkMetadata :=
  { StandardQuestion := gs "how to use",
    SimilarQuestions := [gs "usage", gs "how do I use it"],
    NegativeQuestions := [gs "pricing"],
    Answers := [gs "read the docs", gs "ask support"],
    AnswerStrategy := gs "all", Version := 1, Source := gs "manual" }

/-- `faqMetaA` with reordered lists, incidental white space and a
duplicate entry (semantically identical content). -/
def faqMetaB : FAQChunkMetadata :=
  { StandardQuestion := gs "  how to use ",
    SimilarQuestions := [gs "how do I use it", gs " usage ", gs "usage"],
    NegativeQuestions := [gs "pricing "],
    Answers := [gs " ask support", gs "read the docs"],
    AnswerStrategy := gs "random", Version := 7, Source := [] }

/-- `faqMetaA` with its first answer replaced by a different string that
trims to the same value. -/
def faqMetaC : FAQChunkMetadata :=
  { faqMetaA with Answers := [gs " read the docs ", gs "ask support"] }

/-- Spec-side description of the assembled user content: the context
template with the validated query, the contexts block and the two time
renderings substituted for their placeholders, in the order the stage
performs the substitutions. -/
def substitutedUserContent (enrich : GoStr → GoStr → GoStr)
    (nowTime nowWeek : GoStr) (cm : ChatManage) : GoStr :=
  replaceAll (replaceAll (replaceAll
    (replaceAll cm.SummaryConfig.ContextTemplate
      (gs "\x7b\x7bquery\x7d\x7d") (ValidateInput cm.Query).1)
    (gs "\x7b\x7bcontexts\x7d\x7d")
    (buildContexts enrich cm.FAQPriorityEnabled
      (faqSeparate cm.FAQPriorityEnabled cm.FAQDirectAnswerThreshold cm.MergeResult).2.2
      (faqSeparate cm.FAQPriorityEnabled cm.FAQDirectAnswerThreshold cm.MergeResult).1
      (faqSeparate cm.FAQPriorityEnabled cm.FAQDirectAnswerThreshold cm.MergeResult).2.1
      cm.MergeResult))
    (gs "\x7b\x7bcurrent_time\x7d\x7d") nowTime)
    (gs "\x7b\x7bcurrent_week\x7d\x7d") nowWeek

/-- The invariant of the request-id grouping map: every stored turn owes
its (non-empty) answer to some non-user message with the entry's request
id, think-markup stripped, and its (non-empty) query to some user
message with that request id, verbatim. -/
def histPairInv (S : List Message) (p : GoStr × History) : Prop :=
  (p.2.Answer = [] ∨ ∃ m ∈ S, m.RequestID = p.1 ∧ m.Role ≠ gs "user"
      ∧ p.2.Answer = stripThink m.Content)
  ∧ (p.2.Query = [] ∨ ∃ m ∈ S, m.RequestID = p.1 ∧ m.Role = gs "user"
      ∧ p.2.Query = m.Content)

/-! ## Theorems -/

/-- The flag accumulated by folding `faqStep` is set exactly when it was
already set or some processed result is FAQ-typed with score at or above
the threshold. -/
theorem faqStep_foldl_flag (th : ℚ) (l : List SearchResult) :
    ∀ acc : List SearchResult × List SearchResult × Bool,
      (l.foldl (faqStep th) acc).2.2 = true
        ↔ acc.2.2 = true ∨ ∃ r ∈ l, r.ChunkType = ChunkTypeFAQ ∧ th ≤ r.Score := by
  induction l with
  | nil => simp
  | cons r rest ih =>
    intro acc
    simp only [List.foldl_cons]
    rw [ih (faqStep th acc r)]
    have hstep : (faqStep th acc r).2.2 =
        (if r.ChunkType = ChunkTypeFAQ then
          (if th ≤ r.Score ∧ ¬(acc.2.2 = true) then true else acc.2.2)
         else acc.2.2) := by
      unfold faqStep
      by_cases hc : r.ChunkType = ChunkTypeFAQ <;> simp [hc]
    rw [hstep]
    simp only [List.mem_cons]
    constructor
    · rintro (hflag | ⟨x, hx, h1, h2⟩)
      · by_cases hc : r.ChunkType = ChunkTypeFAQ
        · by_cases hq : th ≤ r.Score ∧ ¬(acc.2.2 = true)
          · exact Or.inr ⟨r, Or.inl rfl, hc, hq.1⟩
          · rw [if_pos hc, if_neg hq] at hflag
            exact Or.inl hflag
        · rw [if_neg hc] at hflag
          exact Or.inl hflag
      · exact Or.inr ⟨x, Or.inr hx, h1, h2⟩
    · rintro (hflag | ⟨x, (rfl | hx), h1, h2⟩)
      · left
        split
        · split
          · rfl
          · exact hflag
        · exact hflag
      · left
        rw [if_pos h1]
        by_cases hf : acc.2.2 = true
        · rw [if_neg (by simp [hf])]
          exact hf
        · rw [if_pos ⟨h2, hf⟩]
      · exact Or.inr ⟨x, hx, h1, h2⟩

/-- C1: the high-confidence FAQ flag computed by the prompt-assembly
stage is set iff FAQ-priority is enabled and some FAQ-typed entry of the
merged result list has score at or above the FAQ direct-answer
threshold; with FAQ-priority disabled, or without such an entry, it is
never set. -/
theorem c1_high_confidence_flag_iff (cm : ChatManage) :
    (faqSeparate cm.FAQPriorityEnabled cm.FAQDirectAnswerThreshold cm.MergeResult).2.2 = true
      ↔ cm.FAQPriorityEnabled = true
          ∧ ∃ r ∈ cm.MergeResult,
              r.ChunkType = ChunkTypeFAQ ∧ cm.FAQDirectAnswerThreshold ≤ r.Score := by
  unfold faqSeparate
  cases he : cm.FAQPriorityEnabled
  · simp [he]
  · simp only [he, Bool.not_true, Bool.false_eq_true, if_false,
      faqStep_foldl_flag cm.FAQDirectAnswerThreshold cm.MergeResult ([], [], false)]
    simp

/-- C7: when fetching recent messages fails, the history-loading stage
returns no error, leaves the whole context (in particular its history
field) unchanged and invokes the `next` continuation. -/
theorem c7_history_fetch_failure_nonfatal (cfg : Int) (cm : ChatManage)
    (fetch : Int → Except Unit (List Message))
    (hf : fetch (effectiveMaxRounds cfg cm * 2 + 10) = .error ()) :
    loadHistory cfg fetch cm = .nexted cm := by
  unfold loadHistory
  rw [hf]

/-- Witness for C7 at a concrete context and failing message service. -/
theorem c7_witness :
    loadHistory 5 (fun _ => .error ()) cmBase = .nexted cmBase :=
  c7_history_fetch_failure_nonfatal 5 cmBase (fun _ => .error ()) rfl

/-- C6: the prompt-assembly stage returns the content-safety error
(`ErrTemplateExecute` with the illegal-content cause) and leaves the
context — in particular its assembled user content — unchanged exactly
when the query fails `ValidateInput`; otherwise it substitutes the
placeholders into the context template and invokes `next` with the
result. -/
theorem c6_validation_gates_assembly (enrich : GoStr → GoStr → GoStr)
    (nowTime nowWeek : GoStr) (cm : ChatManage) :
    intoChatMessage enrich nowTime nowWeek cm =
      if (ValidateInput cm.Query).2 = true then
        .nexted { cm with UserContent := substitutedUserContent enrich nowTime nowWeek cm }
      else .errored cm (ErrTemplateExecute.WithError (gs "用户查询包含非法内容")) := by
  cases hv : (ValidateInput cm.Query).2 <;>
    simp [intoChatMessage, substitutedUserContent, hv]

/-- Element-wise copying of search targets is the identity on the value
model. -/
theorem searchTargets_map_copy (l : List SearchTarget) :
    l.map (fun t => ({ TargetType := t.TargetType, KnowledgeBaseID := t.KnowledgeBaseID,
                       KnowledgeIDs := t.KnowledgeIDs } : SearchTarget)) = l := by
  induction l with
  | nil => rfl
  | cons t rest ih => simp [ih]

/-- C8 (amended): `Clone` copies every request/configuration field of
the context (including element-wise copies of the slice-valued ones) and
resets every pipeline-internal field — history, the three result lists,
entities, graph data, user content, chat response, event bus, message id
and the web-search flag — to its zero value. -/
theorem c8_clone_copies_config_resets_internal (c : ChatManage) :
    c.Clone =
      { c with History := [], RerankResult := [], MergeResult := [],
               SearchResult := [], Entity := [], EntityKBIDs := [],
               EntityKnowledge := [], GraphResult := none, UserContent := [],
               ChatResponse := none, EventBus := none, MessageID := [],
               WebSearchEnabled := false } := by
  unfold ChatManage.Clone
  rw [searchTargets_map_copy]

/-- C8 counterexample: on a context with non-empty assembled user
content the clone is not field-for-field equal to the original (its
pipeline-internal fields are zeroed instead of copied). -/
theorem c8_clone_not_identity : ChatManage.Clone cmUCSample ≠ cmUCSample := by
  decide


/-- The effective round limit is non-negative when the configured default is. -/
theorem effectiveMaxRounds_nonneg (cfg : Int) (cm : ChatManage) (h : 0 ≤ cfg) :
    0 ≤ effectiveMaxRounds cfg cm := by
  unfold effectiveMaxRounds
  split <;> omega

/-- The built history never exceeds the round limit. -/
theorem processHistory_length (maxRounds : Int) (msgs : List Message)
    (h : 0 ≤ maxRounds) :
    ((processHistory maxRounds msgs).length : Int) ≤ maxRounds := by
  unfold processHistory
  set sorted := List.insertionSort histGE (historyListOf msgs) with hs
  by_cases hc : maxRounds < (sorted.length : Int)
  · rw [if_pos hc]
    simp only [List.length_reverse, List.length_take]
    have h1 : ((maxRounds.toNat : Nat) : Int) = maxRounds := Int.toNat_of_nonneg h
    have h2 : maxRounds.toNat ⊓ sorted.length = maxRounds.toNat :=
      Nat.min_eq_left (by omega)
    rw [h2, h1]
  · rw [if_neg hc]
    simp only [List.length_reverse]
    omega

/-- The built history is chronologically sorted (oldest first). -/
theorem processHistory_sorted (maxRounds : Int) (msgs : List Message) :
    (processHistory maxRounds msgs).Pairwise (fun a b => a.CreateAt ≤ b.CreateAt) := by
  unfold processHistory
  have hsorted : (List.insertionSort histGE (historyListOf msgs)).Pairwise histGE :=
    List.sorted_insertionSort histGE _
  have hlim : (if maxRounds < ((List.insertionSort histGE (historyListOf msgs)).length : Int)
      then (List.insertionSort histGE (historyListOf msgs)).take maxRounds.toNat
      else List.insertionSort histGE (historyListOf msgs)).Pairwise histGE := by
    split
    · exact List.Pairwise.sublist (List.take_sublist _ _) hsorted
    · exact hsorted
  rw [List.pairwise_reverse]
  exact hlim

/-- C3: on a successful fetch (in any storage order), the
history-loading stage hands `next` a context whose history has at most
the effective round limit of turns (the request limit when positive, the
configured default otherwise) and is in chronological, oldest-first
order of creation timestamps. -/
theorem c3_history_bounded_and_chronological (cfg : Int) (cm : ChatManage)
    (msgs : List Message) (fetch : Int → Except Unit (List Message))
    (hcfg : 0 ≤ cfg)
    (hf : fetch (effectiveMaxRounds cfg cm * 2 + 10) = .ok msgs) :
    ∃ cm2, loadHistory cfg fetch cm = .nexted cm2
      ∧ ((cm2.History.length : Int) ≤ effectiveMaxRounds cfg cm
      ∧ cm2.History.Pairwise (fun a b => a.CreateAt ≤ b.CreateAt)) := by
  refine ⟨{ cm with History := processHistory (effectiveMaxRounds cfg cm) msgs }, ?_, ?_, ?_⟩
  · unfold loadHistory
    rw [hf]
  · exact processHistory_length _ _ (effectiveMaxRounds_nonneg cfg cm hcfg)
  · exact processHistory_sorted _ _

/-- Witness for C3: three out-of-order turns, round limit 2. -/
theorem c3_witness :
    ∃ cm2, loadHistory 2 (fun _ => .ok msgsSample) cmBase = .nexted cm2
      ∧ ((cm2.History.length : Int) ≤ effectiveMaxRounds 2 cmBase
      ∧ cm2.History.Pairwise (fun a b => a.CreateAt ≤ b.CreateAt)) :=
  c3_history_bounded_and_chronological 2 cmBase msgsSample (fun _ => .ok msgsSample)
    (by decide) rfl

/-- A successful map lookup comes from an entry of the map. -/
theorem lookupRid_mem (m : List (GoStr × History)) (rid : GoStr) (h : History)
    (hl : lookupRid m rid = some h) : (rid, h) ∈ m := by
  unfold lookupRid at hl
  cases hf : m.find? (fun p => p.1 == rid) with
  | none => rw [hf] at hl; exact absurd hl (by simp)
  | some p =>
    rw [hf] at hl
    have hl2 : p.2 = h := by simpa using hl
    have hp := List.mem_of_find?_eq_some hf
    have hk0 : (p.1 == rid) = true :=
      @List.find?_some (GoStr × History) (fun q => q.1 == rid) p m hf
    have hk : p.1 = rid := beq_iff_eq.mp hk0
    have hpe : (rid, h) = p := by
      cases p with
      | mk a b => simp only at hk hl2; rw [hk, hl2]
    rw [hpe]
    exact hp

/-- Entries after a map update are old entries or the updated one. -/
theorem updateRid_mem (m : List (GoStr × History)) (rid : GoStr) (hh : History)
    (p : GoStr × History) (hp : p ∈ updateRid m rid hh) : p ∈ m ∨ p = (rid, hh) := by
  induction m with
  | nil =>
    rw [show updateRid [] rid hh = [(rid, hh)] from rfl] at hp
    exact Or.inr (List.mem_singleton.mp hp)
  | cons kv rest ih =>
    unfold updateRid at hp
    by_cases hk : (kv.1 == rid) = true
    · rw [if_pos hk] at hp
      rcases List.mem_cons.mp hp with rfl | hp2
      · exact Or.inr (by rw [beq_iff_eq.mp hk])
      · exact Or.inl (List.mem_cons_of_mem _ hp2)
    · rw [if_neg hk] at hp
      rcases List.mem_cons.mp hp with rfl | hp2
      · exact Or.inl (List.mem_cons_self _ _)
      · rcases ih hp2 with h2 | h2
        · exact Or.inl (List.mem_cons_of_mem _ h2)
        · exact Or.inr h2

/-- The grouping fold preserves `histPairInv`. -/
theorem buildHistoryMap_aux (S : List Message) (l : List Message) :
    ∀ (acc : List (GoStr × History)),
      (∀ m ∈ l, m ∈ S) → (∀ p ∈ acc, histPairInv S p) →
      ∀ p ∈ l.foldl (fun m msg => updateRid m msg.RequestID
          (applyMessage ((lookupRid m msg.RequestID).getD zeroHistory) msg)) acc,
        histPairInv S p := by
  induction l with
  | nil =>
    intro acc _ hacc p hp
    exact hacc p hp
  | cons msg rest ih =>
    intro acc hmem hacc p hp
    simp only [List.foldl_cons] at hp
    refine ih _ (fun m hm => hmem m (List.mem_cons_of_mem _ hm)) ?_ p hp
    intro q hq
    rcases updateRid_mem _ _ _ q hq with hq2 | rfl
    · exact hacc q hq2
    · have hmsg : msg ∈ S := hmem msg (List.mem_cons_self _ _)
      have hold : histPairInv S (msg.RequestID, (lookupRid acc msg.RequestID).getD zeroHistory) := by
        cases hl : lookupRid acc msg.RequestID with
        | none => exact ⟨Or.inl rfl, Or.inl rfl⟩
        | some h0 => exact hacc _ (lookupRid_mem _ _ _ hl)
      unfold applyMessage
      by_cases hrole : msg.Role = gs "user"
      · rw [if_pos hrole]
        exact ⟨hold.1, Or.inr ⟨msg, hmsg, rfl, hrole, rfl⟩⟩
      · rw [if_neg hrole]
        exact ⟨Or.inr ⟨msg, hmsg, rfl, hrole, rfl⟩, hold.2⟩

/-- Every entry of the request-id grouping map satisfies the turn
invariant. -/
theorem buildHistoryMap_inv (msgs : List Message) :
    ∀ p ∈ buildHistoryMap msgs, histPairInv msgs p := by
  intro p hp
  exact buildHistoryMap_aux msgs msgs [] (fun _ hm => hm) (by simp) p hp

/-- Every turn of the stage output comes from the filtered turn list. -/
theorem processHistory_mem (maxRounds : Int) (msgs : List Message) (h : History)
    (hh : h ∈ processHistory maxRounds msgs) : h ∈ historyListOf msgs := by
  unfold processHistory at hh
  rw [List.mem_reverse] at hh
  have hs : h ∈ List.insertionSort histGE (historyListOf msgs) := by
    split at hh
    · exact (List.take_sublist _ _).subset hh
    · exact hh
  exact (List.perm_insertionSort histGE _).mem_iff.mp hs

/-- C9: every turn the history-loading stage builds takes its answer
from a persisted non-user message of the same request id with every
`<think>`..`</think>` span removed (the scan in `stripThink`, newline
spans included), and its query verbatim from a persisted user message of
that request id. -/
theorem c9_turns_from_messages (maxRounds : Int) (msgs : List Message) :
    ∀ h ∈ processHistory maxRounds msgs,
      ∃ rid,
        (∃ m ∈ msgs, m.RequestID = rid ∧ m.Role ≠ gs "user"
            ∧ h.Answer = stripThink m.Content)
        ∧ (∃ m ∈ msgs, m.RequestID = rid ∧ m.Role = gs "user" ∧ h.Query = m.Content) := by
  intro h hh
  have h1 := processHistory_mem maxRounds msgs h hh
  unfold historyListOf at h1
  rw [List.mem_filter] at h1
  obtain ⟨hmem, hpred⟩ := h1
  rw [List.mem_map] at hmem
  obtain ⟨p, hp, hph⟩ := hmem
  have hinv := buildHistoryMap_inv msgs p hp
  have hpred2 : h.Answer ≠ [] ∧ h.Query ≠ [] := of_decide_eq_true hpred
  subst hph
  refine ⟨p.1, ?_, ?_⟩
  · rcases hinv.1 with he | h2
    · exact absurd he hpred2.1
    · exact h2
  · rcases hinv.2 with he | h2
    · exact absurd he hpred2.2
    · exact h2

/-- Witness for C9 on the sample messages (whose assistant content for
request r2 carries a think span with a newline). -/
theorem c9_witness :
    ∃ rid,
      (∃ m ∈ msgsSample, m.RequestID = rid ∧ m.Role ≠ gs "user"
          ∧ (gs "a1") = stripThink m.Content)
      ∧ (∃ m ∈ msgsSample, m.RequestID = rid ∧ m.Role = gs "user" ∧ (gs "q1") = m.Content) :=
  c9_turns_from_messages 2 msgsSample
    { Query := gs "q1", Answer := gs "a1", CreateAt := 5, KnowledgeReferences := [] }
    (by decide)

/-- C10: `ValidateInput` accepts exactly the inputs that are valid
UTF-8, contain no control rune other than tab, line feed or carriage
return, and match no XSS pattern; it returns the trimmed input with
`true` on acceptance and the empty string with `false` on rejection, and
the empty input is always accepted unchanged. -/
theorem c10_validate_input_characterisation (s : GoStr) :
    ValidateInput s =
      (if utf8Valid s = true ∧ hasBadControl s = false ∧ matchesXSS s = false
       then (trimSpace s, true) else ([], false))
    ∧ ValidateInput [] = ([], true) := by
  constructor
  · by_cases h0 : s = []
    · subst h0
      rw [if_pos (by decide)]
      decide
    · cases hu : utf8Valid s <;> cases hc : hasBadControl s <;>
        cases hx : matchesXSS s <;>
        simp [ValidateInput, h0, hu, hc, hx]
  · decide

/-- The FAQ line loop equals the mapped spec-side rendering. -/
theorem faqLinesAux_eq (enrich : GoStr → GoStr → GoStr) (hc : Bool) :
    ∀ (l : List SearchResult) (i : Nat),
      faqLinesAux enrich hc i l = ((List.enumFrom i l).map (faqLineSpec enrich hc)).flatten := by
  intro l
  induction l with
  | nil => intro i; simp [faqLinesAux]
  | cons r rest ih =>
    intro i
    simp [faqLinesAux, List.enumFrom_cons, faqLineSpec, ih (i + 1)]

/-- The document line loop equals the mapped spec-side rendering. -/
theorem docLinesAux_eq (enrich : GoStr → GoStr → GoStr) :
    ∀ (l : List SearchResult) (i : Nat),
      docLinesAux enrich i l = ((List.enumFrom i l).map (docLineSpec enrich)).flatten := by
  intro l
  induction l with
  | nil => intro i; simp [docLinesAux]
  | cons r rest ih =>
    intro i
    simp [docLinesAux, List.enumFrom_cons, docLineSpec, ih (i + 1)]

/-- C2 (amended): with FAQ-priority enabled and at least one FAQ-typed
result, the contexts block is the labeled FAQ section followed by the
labeled reference-documents section (the latter only when document
results exist), each section listing its entries in order with 1-based
labels; the first FAQ entry carries the preferred-exact-match marker
exactly when the high-confidence flag is set (see `faqLineSpec`). -/
theorem c2_faq_priority_sections (enrich : GoStr → GoStr → GoStr) (hasHC : Bool)
    (faqs docs merge : List SearchResult) (hf : faqs ≠ []) :
    buildContexts enrich true hasHC faqs docs merge
      = (gs "### 资料来源 1：标准问答库 (FAQ)\n" ++ gs "【高置信度 - 请优先参考】\n"
          ++ ((faqs.enum.map (faqLineSpec enrich hasHC)).flatten))
        ++ (if docs = [] then []
            else gs "\n### 资料来源 2：参考文档\n" ++ gs "【补充资料 - 仅在FAQ无法解答时参考】\n"
              ++ ((docs.enum.map (docLineSpec enrich)).flatten)) := by
  unfold buildContexts
  rw [if_pos ⟨rfl, hf⟩]
  rw [faqLinesAux_eq, docLinesAux_eq]
  by_cases hd : docs = []
  · simp [hd, List.enum]
  · simp [hd, List.enum]

/-- C2 counterexample: FAQ-priority enabled but no FAQ-typed result —
the stage emits the flat numbered list, not two labeled sections (the
FAQ header is not even a prefix of the block). -/
theorem c2_counterexample :
    cmDocOnlySample.FAQPriorityEnabled = true
    ∧ buildContexts (fun c _ => c) cmDocOnlySample.FAQPriorityEnabled
        (faqSeparate cmDocOnlySample.FAQPriorityEnabled
          cmDocOnlySample.FAQDirectAnswerThreshold cmDocOnlySample.MergeResult).2.2
        (faqSeparate cmDocOnlySample.FAQPriorityEnabled
          cmDocOnlySample.FAQDirectAnswerThreshold cmDocOnlySample.MergeResult).1
        (faqSeparate cmDocOnlySample.FAQPriorityEnabled
          cmDocOnlySample.FAQDirectAnswerThreshold cmDocOnlySample.MergeResult).2.1
        cmDocOnlySample.MergeResult
      = gs "[1] hello"
    ∧ (gs "### 资料来源 1：标准问答库 (FAQ)\n").isPrefixOf (gs "[1] hello") = false := by
  decide

/-- Witness for C2 (amended) on one FAQ and one document result with
the high-confidence flag set. -/
theorem c2_witness :
    buildContexts (fun c _ => c) true true [faqResSample] [docResSample]
        [faqResSample, docResSample]
      = (gs "### 资料来源 1：标准问答库 (FAQ)\n" ++ gs "【高置信度 - 请优先参考】\n"
          ++ (([faqResSample].enum.map (faqLineSpec (fun c _ => c) true)).flatten))
        ++ (if [docResSample] = ([] : List SearchResult) then []
            else gs "\n### 资料来源 2：参考文档\n" ++ gs "【补充资料 - 仅在FAQ无法解答时参考】\n"
              ++ (([docResSample].enum.map (docLineSpec (fun c _ => c))).flatten)) :=
  c2_faq_priority_sections (fun c _ => c) true [faqResSample] [docResSample]
    [faqResSample, docResSample] (by decide)

/-- Membership in the normalization accumulator loop. -/
theorem normAux_mem (l : List GoStr) :
    ∀ (d : List GoStr) (x : GoStr),
      x ∈ normAux l d ↔ x ∈ d ∨ (x ∈ l.map trimSpace ∧ x ≠ []) := by
  induction l with
  | nil => intro d x; simp [normAux]
  | cons v vs ih =>
    intro d x
    by_cases ht : trimSpace v = []
    · rw [show normAux (v :: vs) d = normAux vs d by simp [normAux, ht]]
      rw [ih d x]
      simp only [List.map_cons, List.mem_cons]
      constructor
      · rintro (h | ⟨hx, hne⟩)
        · exact Or.inl h
        · exact Or.inr ⟨Or.inr hx, hne⟩
      · rintro (h | ⟨(rfl | hx), hne⟩)
        · exact Or.inl h
        · exact absurd ht hne
        · exact Or.inr ⟨hx, hne⟩
    · by_cases hd : trimSpace v ∈ d
      · rw [show normAux (v :: vs) d = normAux vs d by simp [normAux, ht, hd]]
        rw [ih d x]
        simp only [List.map_cons, List.mem_cons]
        constructor
        · rintro (h | ⟨hx, hne⟩)
          · exact Or.inl h
          · exact Or.inr ⟨Or.inr hx, hne⟩
        · rintro (h | ⟨(rfl | hx), hne⟩)
          · exact Or.inl h
          · exact Or.inl hd
          · exact Or.inr ⟨hx, hne⟩
      · rw [show normAux (v :: vs) d = normAux vs (d ++ [trimSpace v]) by
          simp [normAux, ht, hd]]
        rw [ih (d ++ [trimSpace v]) x]
        simp only [List.map_cons, List.mem_cons, List.mem_append, List.mem_singleton,
          List.not_mem_nil, or_false]
        constructor
        · rintro ((h | rfl) | ⟨hx, hne⟩)
          · exact Or.inl h
          · exact Or.inr ⟨Or.inl rfl, ht⟩
          · exact Or.inr ⟨Or.inr hx, hne⟩
        · rintro (h | ⟨(rfl | hx), hne⟩)
          · exact Or.inl (Or.inl h)
          · exact Or.inl (Or.inr rfl)
          · exact Or.inr ⟨hx, hne⟩

/-- The normalization loop never duplicates an entry. -/
theorem normAux_nodup (l : List GoStr) :
    ∀ d : List GoStr, d.Nodup → (normAux l d).Nodup := by
  induction l with
  | nil => intro d hd; exact hd
  | cons v vs ih =>
    intro d hd
    by_cases ht : trimSpace v = []
    · rw [show normAux (v :: vs) d = normAux vs d by simp [normAux, ht]]
      exact ih d hd
    · by_cases hmem : trimSpace v ∈ d
      · rw [show normAux (v :: vs) d = normAux vs d by simp [normAux, ht, hmem]]
        exact ih d hd
      · rw [show normAux (v :: vs) d = normAux vs (d ++ [trimSpace v]) by
          simp [normAux, ht, hmem]]
        refine ih _ (List.Nodup.append hd (List.nodup_singleton _) ?_)
        intro a ha hb
        rw [List.mem_singleton] at hb
        subst hb
        exact hmem ha

/-- `normalizeStrings` holds exactly the non-empty trimmed entries. -/
theorem normalizeStrings_mem (l : List GoStr) (x : GoStr) :
    x ∈ normalizeStrings l ↔ x ∈ l.map trimSpace ∧ x ≠ [] := by
  rw [normalizeStrings, normAux_mem]
  simp

/-- `normalizeStrings` output is duplicate-free. -/
theorem normalizeStrings_nodup (l : List GoStr) : (normalizeStrings l).Nodup :=
  normAux_nodup l [] List.nodup_nil

/-- Duplicate-free lists with the same members sort identically. -/
theorem sortStrings_eq_of_mem_iff (l1 l2 : List GoStr) (h1 : l1.Nodup) (h2 : l2.Nodup)
    (h : ∀ x, x ∈ l1 ↔ x ∈ l2) : sortStrings l1 = sortStrings l2 := by
  have hperm : l1.Perm l2 :=
    List.perm_of_nodup_nodup_toFinset_eq h1 h2
      (Finset.ext fun a => by simp only [List.mem_toFinset]; exact h a)
  have hp : (sortStrings l1).Perm (sortStrings l2) :=
    ((List.perm_insertionSort _ l1).trans hperm).trans (List.perm_insertionSort _ l2).symm
  exact List.eq_of_perm_of_sorted hp
    (List.sorted_insertionSort _ l1) (List.sorted_insertionSort _ l2)

/-- The sorted normalized list depends only on the set of trimmed
entries. -/
theorem sortStrings_normalizeStrings_congr (l1 l2 : List GoStr)
    (h1 : ∀ x ∈ l1.map trimSpace, x ∈ l2.map trimSpace)
    (h2 : ∀ x ∈ l2.map trimSpace, x ∈ l1.map trimSpace) :
    sortStrings (normalizeStrings l1) = sortStrings (normalizeStrings l2) := by
  refine sortStrings_eq_of_mem_iff _ _ (normalizeStrings_nodup l1) (normalizeStrings_nodup l2)
    (fun x => ?_)
  rw [normalizeStrings_mem, normalizeStrings_mem]
  exact ⟨fun ⟨hx, hne⟩ => ⟨h1 x hx, hne⟩, fun ⟨hx, hne⟩ => ⟨h2 x hx, hne⟩⟩

/-- C4: two FAQ content descriptors whose standard questions agree after
trimming and whose similar/negative/answer lists have the same trimmed
entries up to reordering, duplicates and leading/trailing white space
produce the identical content hash. -/
theorem c4_content_hash_set_invariant (m1 m2 : FAQChunkMetadata)
    (hsq : trimSpace m1.StandardQuestion = trimSpace m2.StandardQuestion)
    (hs1 : ∀ x ∈ m1.SimilarQuestions.map trimSpace, x ∈ m2.SimilarQuestions.map trimSpace)
    (hs2 : ∀ x ∈ m2.SimilarQuestions.map trimSpace, x ∈ m1.SimilarQuestions.map trimSpace)
    (hn1 : ∀ x ∈ m1.NegativeQuestions.map trimSpace, x ∈ m2.NegativeQuestions.map trimSpace)
    (hn2 : ∀ x ∈ m2.NegativeQuestions.map trimSpace, x ∈ m1.NegativeQuestions.map trimSpace)
    (ha1 : ∀ x ∈ m1.Answers.map trimSpace, x ∈ m2.Answers.map trimSpace)
    (ha2 : ∀ x ∈ m2.Answers.map trimSpace, x ∈ m1.Answers.map trimSpace) :
    CalculateFAQContentHash m1 = CalculateFAQContentHash m2 := by
  unfold CalculateFAQContentHash
  congr 1
  unfold faqContentString FAQChunkMetadata.Normalize
  simp only
  rw [hsq, sortStrings_normalizeStrings_congr _ _ hs1 hs2,
    sortStrings_normalizeStrings_congr _ _ hn1 hn2,
    sortStrings_normalizeStrings_congr _ _ ha1 ha2]

/-- Witness for C4: `faqMetaB` reorders `faqMetaA`'s lists, adds white
space and a duplicate (and changes fields outside the hash). -/
theorem c4_witness : CalculateFAQContentHash faqMetaA = CalculateFAQContentHash faqMetaB :=
  c4_content_hash_set_invariant faqMetaA faqMetaB (by decide) (by decide) (by decide)
    (by decide) (by decide) (by decide) (by decide)

/-- `unjoin` passes over a comma-free prefix. -/
theorem unjoin_append (a : GoStr) (s : GoStr) (ha : (44 : Nat) ∉ a) :
    unjoin (a ++ s) = (a ++ (unjoin s).1, (unjoin s).2) := by
  induction a with
  | nil => simp
  | cons b bs ih =>
    have hb : ¬ b = 44 := fun h => ha (by rw [h]; exact List.mem_cons_self _ _)
    have ha2 : (44 : Nat) ∉ bs := fun h => ha (List.mem_cons_of_mem _ h)
    simp only [List.cons_append, unjoin, if_neg hb, List.append_eq, ih ha2]

/-- The byte content of the separator literal. -/
theorem gs_comma : gs "," = [44] := by decide

/-- `unjoin` recovers the component list of a comma-join of comma-free
components. -/
theorem unjoin_joinComma (l : List GoStr) (hcf : ∀ x ∈ l, (44 : Nat) ∉ x) (hl : l ≠ []) :
    (unjoin (joinComma l)).1 :: (unjoin (joinComma l)).2 = l := by
  induction l with
  | nil => exact absurd rfl hl
  | cons a t ih =>
    cases t with
    | nil =>
      have ha : (44 : Nat) ∉ a := hcf a (List.mem_cons_self _ _)
      have h1 : joinComma [a] = a ++ [] := by simp [joinComma]
      rw [h1, unjoin_append a [] ha]
      simp [unjoin]
    | cons b rest =>
      have ha : (44 : Nat) ∉ a := hcf a (List.mem_cons_self _ _)
      have h1 : joinComma (a :: b :: rest) = a ++ (44 :: joinComma (b :: rest)) := by
        simp [joinComma, gs_comma]
      rw [h1, unjoin_append a _ ha]
      have h2 : unjoin (44 :: joinComma (b :: rest)) =
          ([], (unjoin (joinComma (b :: rest))).1 :: (unjoin (joinComma (b :: rest))).2) := by
        simp [unjoin]
      rw [h2]
      simp only [List.append_nil]
      have := ih (fun x hx => hcf x (List.mem_cons_of_mem _ hx)) (by simp)
      rw [this]

/-- A comma-join of a list headed by a non-empty component is
non-empty. -/
theorem joinComma_ne_nil (a : GoStr) (t : List GoStr) (ha : a ≠ []) :
    joinComma (a :: t) ≠ [] := by
  cases t with
  | nil => simpa [joinComma] using ha
  | cons b rest =>
    have h1 : joinComma (a :: b :: rest) = a ++ (44 :: joinComma (b :: rest)) := by
      simp [joinComma, gs_comma]
    rw [h1]
    exact List.append_ne_nil_of_left_ne_nil ha _

/-- Comma-joins of non-empty comma-free components are injective. -/
theorem joinComma_inj (l1 l2 : List GoStr)
    (h1 : ∀ x ∈ l1, x ≠ [] ∧ (44 : Nat) ∉ x)
    (h2 : ∀ x ∈ l2, x ≠ [] ∧ (44 : Nat) ∉ x)
    (hj : joinComma l1 = joinComma l2) : l1 = l2 := by
  cases l1 with
  | nil =>
    cases l2 with
    | nil => rfl
    | cons b t =>
      exact absurd hj.symm (joinComma_ne_nil b t (h2 b (List.mem_cons_self _ _)).1)
  | cons a t =>
    cases l2 with
    | nil => exact absurd hj (joinComma_ne_nil a t (h1 a (List.mem_cons_self _ _)).1)
    | cons b u =>
      have e1 := unjoin_joinComma (a :: t) (fun x hx => (h1 x hx).2) (by simp)
      have e2 := unjoin_joinComma (b :: u) (fun x hx => (h2 x hx).2) (by simp)
      rw [hj] at e1
      exact e1.symm.trans e2

/-- C5 (amended): replacing one answer changes the canonical content
string from which `CalculateFAQContentHash` computes its SHA-256,
provided no existing answer's trimmed value contains a comma and the
replacement's trimmed value is non-empty, comma-free, and different from
every existing answer's trimmed value.  (A change of hash then follows
for the actual digest unless SHA-256 collides, which is not formally
derivable.) -/
theorem c5_changed_answer_changes_content (m : FAQChunkMetadata) (p s : List GoStr)
    (a b : GoStr) (hm : m.Answers = p ++ a :: s)
    (hcf : ∀ x ∈ (p ++ a :: s).map trimSpace, (44 : Nat) ∉ x)
    (hbne : trimSpace b ≠ []) (hbcf : (44 : Nat) ∉ trimSpace b)
    (hfresh : trimSpace b ∉ (p ++ a :: s).map trimSpace) :
    faqContentString { m with Answers := p ++ b :: s } ≠ faqContentString m := by
  intro heq
  have e1 : faqContentString { m with Answers := p ++ b :: s } =
      (trimSpace m.StandardQuestion ++ gs "|"
        ++ joinComma (sortStrings (normalizeStrings m.SimilarQuestions)) ++ gs "|"
        ++ joinComma (sortStrings (normalizeStrings m.NegativeQuestions)) ++ gs "|")
      ++ joinComma (sortStrings (normalizeStrings (p ++ b :: s))) := by
    simp [faqContentString, FAQChunkMetadata.Normalize, List.append_assoc]
  have e2 : faqContentString m =
      (trimSpace m.StandardQuestion ++ gs "|"
        ++ joinComma (sortStrings (normalizeStrings m.SimilarQuestions)) ++ gs "|"
        ++ joinComma (sortStrings (normalizeStrings m.NegativeQuestions)) ++ gs "|")
      ++ joinComma (sortStrings (normalizeStrings (p ++ a :: s))) := by
    simp [faqContentString, FAQChunkMetadata.Normalize, List.append_assoc, hm]
  rw [e1, e2] at heq
  have hj := List.append_cancel_left heq
  have hmemnew : ∀ x ∈ sortStrings (normalizeStrings (p ++ b :: s)),
      x ≠ [] ∧ (44 : Nat) ∉ x := by
    intro x hx
    have hx2 : x ∈ normalizeStrings (p ++ b :: s) :=
      (List.perm_insertionSort _ _).mem_iff.mp hx
    rw [normalizeStrings_mem] at hx2
    obtain ⟨hxm, hxne⟩ := hx2
    refine ⟨hxne, ?_⟩
    rw [List.map_append, List.map_cons] at hxm
    rcases List.mem_append.mp hxm with hxp | hxc
    · exact hcf x (by
        rw [List.map_append, List.map_cons]
        exact List.mem_append.mpr (Or.inl hxp))
    · rcases List.mem_cons.mp hxc with rfl | hxs
      · exact hbcf
      · exact hcf x (by
          rw [List.map_append, List.map_cons]
          exact List.mem_append.mpr (Or.inr (List.mem_cons_of_mem _ hxs)))
  have hmemold : ∀ x ∈ sortStrings (normalizeStrings (p ++ a :: s)),
      x ≠ [] ∧ (44 : Nat) ∉ x := by
    intro x hx
    have hx2 : x ∈ normalizeStrings (p ++ a :: s) :=
      (List.perm_insertionSort _ _).mem_iff.mp hx
    rw [normalizeStrings_mem] at hx2
    exact ⟨hx2.2, hcf x hx2.1⟩
  have hlists := joinComma_inj _ _ hmemnew hmemold hj
  have htb : trimSpace b ∈ sortStrings (normalizeStrings (p ++ b :: s)) := by
    refine (List.perm_insertionSort _ _).mem_iff.mpr ?_
    rw [normalizeStrings_mem]
    refine ⟨?_, hbne⟩
    rw [List.map_append, List.map_cons]
    exact List.mem_append.mpr (Or.inr (List.mem_cons_self _ _))
  rw [hlists] at htb
  have htb2 := (List.perm_insertionSort _ _).mem_iff.mp htb
  rw [normalizeStrings_mem] at htb2
  exact hfresh htb2.1

/-- C5 counterexample: replacing the answer `"read the docs"` by the
different string `" read the docs "` (same value after trimming) leaves
the content hash unchanged, refuting the claim for arbitrary
replacements. -/
theorem c5_counterexample :
    (faqMetaC.Answers = [gs " read the docs ", gs "ask support"]
      ∧ faqMetaA.Answers = [gs "read the docs", gs "ask support"]
      ∧ gs " read the docs " ≠ gs "read the docs")
    ∧ CalculateFAQContentHash faqMetaC = CalculateFAQContentHash faqMetaA := by
  exact ⟨by decide,
    congrArg sha256Hex (by decide : faqContentString faqMetaC = faqContentString faqMetaA)⟩

/-- Witness for C5 (amended): replacing the second answer of `faqMetaA`
by a genuinely new answer changes the canonical content string. -/
theorem c5_witness :
    faqContentString { faqMetaA with Answers := [gs "read the docs"] ++ (gs "totally new") :: [] }
      ≠ faqContentString faqMetaA :=
  c5_changed_answer_changes_content faqMetaA [gs "read the docs"] [] (gs "ask support")
    (gs "totally new") (by decide) (by decide) (by decide) (by decide) (by decide)
